import Mathlib

/-!
Shallow embedding of `backend/app.py` (CSAT prediction service):
the input validator `validate_input`, the feature encoder
`preprocess_input`, and the `/predict` orchestration, together with
theorems about them.

JSON scalar values are modelled by `Value`; a request record (a Python
dict) is an association list with `List.lookup` as key access; a
fitted sklearn `LabelEncoder` is modelled by its ordered `classes_`
vocabulary, with `transform` mapping a string to its index and raising
on an unseen label.
-/

/-- A JSON/Python scalar value as it appears in a request record.
`vBool` is separate because Python `bool` is a subclass of `int`,
so `isinstance(True, (int, float))` holds: the type check must see it. -/
inductive Value where
  | vStr (s : String)
  | vBool (b : Bool)
  | vInt (n : Int)
  | vFloat (q : Rat)
deriving DecidableEq, Repr

/-- A request record: a Python dict from feature name to value. -/
abbrev Record := List (String × Value)

/-- The `FEATURES` constant of `app.py`: the 11-entry feature schema. -/
def FEATURES : List String :=
  ["channel_name", "category", "Sub-category", "Item_price",
   "connected_handling_time", "response_delay", "survey_delay",
   "sentiment_score", "Agent_name", "Agent Shift", "Tenure Bucket"]

/-- The `numeric_features` list inside `validate_input`. -/
def numeric_features : List String :=
  ["Item_price", "connected_handling_time", "response_delay",
   "survey_delay", "sentiment_score"]

/-- Python `isinstance(v, (int, float))`.  True for `int`, `float` and
`bool` (a `bool` is an `int` in Python); false for `str`. -/
def isNumericVal : Value → Bool
  | .vStr _ => false
  | .vBool _ => true
  | .vInt _ => true
  | .vFloat _ => true

/-- The message `f"Missing required feature: {feature}"`. -/
def missingMsg (f : String) : String := "Missing required feature: " ++ f

/-- The message `f"Feature {feature} must be numeric"`. -/
def numericMsg (f : String) : String := "Feature " ++ f ++ " must be numeric"

/-- `validate_input` from `app.py`: first loop appends one missing-feature
message per schema feature absent from the record, second loop appends one
must-be-numeric message per numeric-designated feature that is present with
a non-numeric value.  All failures are accumulated. -/
def validate_input (data : Record) : List String :=
  let errors := FEATURES.foldl
    (fun errs feature =>
      if (data.lookup feature).isNone then errs ++ [missingMsg feature] else errs)
    []
  numeric_features.foldl
    (fun errs feature =>
      if (data.lookup feature).any (fun v => !isNumericVal v) then
        errs ++ [numericMsg feature]
      else errs)
    errors

/-- Recognises the shape of a missing-feature message: the first seven
characters spell `Missing`. -/
def mentionsMissing (m : String) : Bool := m.data.take 7 == "Missing".data

/-- A fitted sklearn `LabelEncoder`, reduced to what the service uses:
its ordered `classes_` vocabulary.  `transform` maps a class string to
its index in that vocabulary. -/
structure Encoder where
  classes : List String
deriving DecidableEq, Repr

/-- `le.transform([s])` for a string column: the dense integer code is the
index of `s` in `classes_`; an unseen label raises `ValueError`. -/
def Encoder.transform (le : Encoder) (s : String) : Except String Nat :=
  if s ∈ le.classes then .ok (le.classes.indexOf s)
  else .error ("y contains previously unseen labels: " ++ s)

/-- The label-encoder bundle loaded at startup: a dict from categorical
column name to its encoder. -/
abbrev Encoders := List (String × Encoder)

/-- The lambda in `df[col].apply(lambda x: x if x in le.classes_ else 'Unknown')`.
A non-string cell is never equal to any class string, so it also falls back
to the sentinel. -/
def fallback (le : Encoder) (v : Value) : String :=
  match v with
  | .vStr s => if s ∈ le.classes then s else "Unknown"
  | _ => "Unknown"

/-- `if 'Unknown' not in le.classes_: le.classes_ = np.append(le.classes_, 'Unknown')`. -/
def bumpClasses (cs : List String) : List String :=
  if "Unknown" ∈ cs then cs else cs ++ ["Unknown"]

/-- `df[col] = value`: pandas column assignment.  Replaces the column in
place when present, otherwise appends it on the right. -/
def dfSet (df : Record) (k : String) (v : Value) : Record :=
  if df.any (fun p => p.1 == k) then
    df.map (fun p => if p.1 == k then (k, v) else p)
  else df ++ [(k, v)]

/-- The `for col in label_encoders:` loop of `preprocess_input`: for each
encoder column present in the frame, apply the unseen-label fallback,
append the `Unknown` class when absent, and replace the column by its
integer codes.  Returns the updated frame and the updated encoder dict
(the source mutates `label_encoders` in place). -/
def encodeLoop : Encoders → Record → Except String (Record × Encoders)
  | [], df => .ok (df, [])
  | (col, le) :: rest, df =>
    match df.lookup col with
    | none =>
      match encodeLoop rest df with
      | .ok (df', rest') => .ok (df', (col, le) :: rest')
      | .error m => .error m
    | some v =>
      let s := fallback le v
      let le' : Encoder := ⟨bumpClasses le.classes⟩
      match le'.transform s with
      | .error m => .error m
      | .ok code =>
        match encodeLoop rest (dfSet df col (.vInt code)) with
        | .ok (df', rest') => .ok (df', (col, le') :: rest')
        | .error m => .error m

/-- `for feature in FEATURES: if feature not in df.columns: df[feature] = 0`. -/
def fillMissing (df : Record) : Record :=
  FEATURES.foldl
    (fun acc feature =>
      if (acc.lookup feature).isNone then dfSet acc feature (.vInt 0) else acc)
    df

/-- Column selection of each schema feature in order, `df[FEATURES]`;
pandas raises a `KeyError` if a requested column is absent. -/
def lookupAll : List String → Record → Option (List Value)
  | [], _ => some []
  | f :: fs, df =>
    match df.lookup f, lookupAll fs df with
    | some v, some vs => some (v :: vs)
    | _, _ => none

/-- The body of the `try:` block of `preprocess_input`: encode categorical
columns, default absent schema features to 0, reorder to schema order and
take the values row. -/
def preprocessBody (encs : Encoders) (data : Record) :
    Except String (List Value × Encoders) :=
  match encodeLoop encs data with
  | .error m => .error m
  | .ok (df1, encs') =>
    match lookupAll FEATURES (fillMissing df1) with
    | none => .error "KeyError: columns not in index"
    | some row => .ok (row, encs')

/-- The `except Exception as e: raise ValueError(f"Preprocessing failed: {str(e)}")`
wrapper around the body of `preprocess_input`: any internal error is
re-signalled as a single `ValueError` carrying the original cause message. -/
def preprocessWrap {α : Type} (r : Except String α) : Except String α :=
  match r with
  | .ok v => .ok v
  | .error m => .error ("Preprocessing failed: " ++ m)

/-- `preprocess_input` from `app.py`.  The module-level `label_encoders`
dict is passed explicitly; the result carries the updated encoders since
the source mutates them in place. -/
def preprocess_input (encs : Encoders) (data : Record) :
    Except String (List Value × Encoders) :=
  preprocessWrap (preprocessBody encs data)

/-- Characterisation of one output cell of `preprocess_input`, used by the
theorems below: an encoder column present in the record becomes the
post-append code of its fallback value; any other schema feature keeps its
record value, or 0 when absent. -/
def entryFor (encs : Encoders) (data : Record) (f : String) : Value :=
  match encs.lookup f, data.lookup f with
  | some le, some v => .vInt ((bumpClasses le.classes).indexOf (fallback le v))
  | _, _ => (data.lookup f).getD (.vInt 0)

/-- Characterisation of the encoder dict after one `preprocess_input` call:
each encoder whose column is present in the record gets its classes bumped
with the `Unknown` sentinel; the others are untouched. -/
def postEncs (encs : Encoders) (data : Record) : Encoders :=
  encs.map (fun p =>
    (p.1, if (data.lookup p.1).isSome then ⟨bumpClasses p.2.classes⟩ else p.2))

/-- A Python exception as the `/predict` handler distinguishes them:
`ValueError` (caught by the first `except`) versus anything else
(caught by the catch-all). -/
inductive PyErr where
  | valueError (msg : String)
  | otherError (msg : String)
deriving DecidableEq, Repr

/-- A non-empty all-digit character list read as a base-10 natural. -/
def pyDigits (cs : List Char) : Option Nat :=
  if cs ≠ [] ∧ cs.all Char.isDigit then
    some (cs.foldl (fun n c => n * 10 + (c.toNat - 48)) 0)
  else none

/-- A base-10 integer literal with optional sign, as `int()` accepts.
(Python additionally strips whitespace and allows underscores; no claim
depends on that.) -/
def pyStrToInt (s : String) : Option Int :=
  match s.data with
  | '-' :: cs => (pyDigits cs).map (fun n => -(n : Int))
  | '+' :: cs => (pyDigits cs).map (fun n => (n : Int))
  | cs => (pyDigits cs).map (fun n => (n : Int))

/-- Python `int(v)`.  `bool` converts to 0/1, `float` truncates toward
zero, and a string must be a base-10 integer literal or `ValueError` is
raised. -/
def pyInt : Value → Except PyErr Int
  | .vInt n => .ok n
  | .vBool b => .ok (if b then 1 else 0)
  | .vFloat q => .ok (q.num.tdiv (q.den : Int))
  | .vStr s =>
    match pyStrToInt s with
    | some n => .ok n
    | none => .error (.valueError ("invalid literal for int() with base 10: " ++ s))

/-- Python `float(v)` on the model output.  (Python additionally parses
numeric string literals; no claim depends on that, so a string raises.) -/
def pyFloat : Value → Except PyErr Rat
  | .vInt n => .ok n
  | .vBool b => .ok (if b then 1 else 0)
  | .vFloat q => .ok q
  | .vStr s => .error (.valueError ("could not convert string to float: " ++ s))

/-- Python `pred == 1` on the raw model output (`True == 1` holds). -/
def pyEqOne : Value → Bool
  | .vInt n => n == 1
  | .vBool b => b
  | .vFloat q => q == 1
  | .vStr _ => false

/-- The trained classifier, an opaque startup artifact: `predict` and
`predict_proba` applied to the single-row feature matrix, returning the
row's scalar result or raising. -/
structure ModelDeps where
  model_predict : List Value → Except PyErr Value
  model_predict_proba : List Value → Except PyErr Value

/-- An HTTP response of the `/predict` route: status code plus the JSON
fields the handler can emit (the timestamp is omitted as wall-clock
dependent). -/
structure Response where
  status : Nat
  error : Option String
  details : Option (List String)
  prediction : Option Int
  probability : Option Rat
  label : Option String
deriving DecidableEq, Repr

/-- A 400/500 response carrying only an error message. -/
def errResp (status : Nat) (msg : String) : Response :=
  ⟨status, some msg, none, none, none, none⟩

/-- The `/predict` handler of `app.py`, parameterised over the model
artifact and the preprocessing function it calls.  The `try/except`
routing is explicit: a `ValueError` raised anywhere in the block yields
400 with its message, any other exception yields 500 with the generic
message. -/
def predictRoute (deps : ModelDeps)
    (pp : Record → Except String (List Value × Encoders))
    (isJson : Bool) (input : Record) : Response :=
  if !isJson then errResp 400 "Request must be JSON"
  else
    let validation_errors := validate_input input
    if !validation_errors.isEmpty then
      ⟨400, some "Validation failed", some validation_errors, none, none, none⟩
    else
      match pp input with
      | .error m => errResp 400 m
      | .ok (processed, _) =>
        match deps.model_predict processed with
        | .error (.valueError m) => errResp 400 m
        | .error (.otherError _) => errResp 500 "Internal server error"
        | .ok pred =>
          match deps.model_predict_proba processed with
          | .error (.valueError m) => errResp 400 m
          | .error (.otherError _) => errResp 500 "Internal server error"
          | .ok pred_prob =>
            match pyInt pred with
            | .error (.valueError m) => errResp 400 m
            | .error (.otherError _) => errResp 500 "Internal server error"
            | .ok predN =>
              match pyFloat pred_prob with
              | .error (.valueError m) => errResp 400 m
              | .error (.otherError _) => errResp 500 "Internal server error"
              | .ok probQ =>
                ⟨200, none, none, some predN, some probQ,
                 some (if pyEqOne pred then "High CSAT" else "Low CSAT")⟩

/-- The `/predict` handler with its preprocessing stage instantiated to
`preprocess_input` over the loaded encoder bundle. -/
def predict (deps : ModelDeps) (encs : Encoders) (isJson : Bool)
    (input : Record) : Response :=
  predictRoute deps (preprocess_input encs) isJson input

/-- A fully-populated well-typed example record, used to instantiate
theorems at a concrete input. -/
def demoRecord : Record :=
  [("channel_name", .vStr "Inbound"), ("category", .vStr "Returns"),
   ("Sub-category", .vStr "Fraud"), ("Item_price", .vInt 100),
   ("connected_handling_time", .vInt 5), ("response_delay", .vInt 2),
   ("survey_delay", .vInt 1), ("sentiment_score", .vFloat 0),
   ("Agent_name", .vStr "A"), ("Agent Shift", .vStr "Morning"),
   ("Tenure Bucket", .vStr "0-30")]

/-- An example label-encoder bundle for the categorical columns. -/
def demoEncs : Encoders :=
  [("channel_name", ⟨["Email", "Inbound"]⟩), ("category", ⟨["Order", "Returns"]⟩),
   ("Sub-category", ⟨["Fraud"]⟩), ("Agent_name", ⟨["A", "B"]⟩),
   ("Agent Shift", ⟨["Morning", "Evening"]⟩), ("Tenure Bucket", ⟨["0-30", "31-60"]⟩)]

/-- The row `preprocess_input` produces for `demoRecord` under `demoEncs`. -/
def demoRow : List Value :=
  [.vInt 1, .vInt 1, .vInt 0, .vInt 100, .vInt 5, .vInt 2, .vInt 1, .vFloat 0,
   .vInt 0, .vInt 0, .vInt 0]

/-- The encoder bundle after one `preprocess_input` call on `demoRecord`:
every encoder gained the `Unknown` sentinel. -/
def demoEncs1 : Encoders :=
  [("channel_name", ⟨["Email", "Inbound", "Unknown"]⟩),
   ("category", ⟨["Order", "Returns", "Unknown"]⟩),
   ("Sub-category", ⟨["Fraud", "Unknown"]⟩),
   ("Agent_name", ⟨["A", "B", "Unknown"]⟩),
   ("Agent Shift", ⟨["Morning", "Evening", "Unknown"]⟩),
   ("Tenure Bucket", ⟨["0-30", "31-60", "Unknown"]⟩)]

/-- The row `preprocess_input` produces for `demoRecord` when the encoder
bundle is empty: the raw values in schema order. -/
def demoRowPlain : List Value :=
  [.vStr "Inbound", .vStr "Returns", .vStr "Fraud", .vInt 100, .vInt 5,
   .vInt 2, .vInt 1, .vFloat 0, .vStr "A", .vStr "Morning", .vStr "0-30"]

/-- A well-behaved model artifact: class 1 with probability 9/10. -/
def demoDeps : ModelDeps :=
  ⟨fun _ => .ok (.vInt 1), fun _ => .ok (.vFloat (9 / 10))⟩

/-- A model artifact whose `predict` raises a `ValueError`, as sklearn does
on malformed feature matrices. -/
def badDeps : ModelDeps :=
  ⟨fun _ => .error (.valueError "boom"), fun _ => .ok (.vFloat (1 / 2))⟩

/-- A model artifact whose `predict` raises a non-`ValueError` exception. -/
def otherDeps : ModelDeps :=
  ⟨fun _ => .error (.otherError "boom"), fun _ => .ok (.vFloat (1 / 2))⟩

/-- A model artifact returning a non-numeric class label, so the response
assembly's `int(pred)` raises a `ValueError`. -/
def strDeps : ModelDeps :=
  ⟨fun _ => .ok (.vStr "abc"), fun _ => .ok (.vFloat (1 / 2))⟩

section ValidateLemmas

variable {α β : Type}

/-- Accumulating `foldl` with conditional append is `filter` then `map`. -/
theorem foldl_append_filter_map (p : α → Bool) (g : α → β) :
    ∀ (l : List α) (init : List β),
      l.foldl (fun acc a => if p a then acc ++ [g a] else acc) init
        = init ++ (l.filter p).map g
  | [], init => by simp
  | a :: l, init => by
    by_cases h : p a <;>
      simp [List.foldl_cons, h, foldl_append_filter_map p g l]

/-- `validate_input` as filter/map: the missing-feature block followed by
the must-be-numeric block. -/
theorem validate_input_eq (data : Record) :
    validate_input data
      = (FEATURES.filter (fun f => (data.lookup f).isNone)).map missingMsg
        ++ (numeric_features.filter
              (fun f => (data.lookup f).any (fun v => !isNumericVal v))).map numericMsg := by
  unfold validate_input
  rw [foldl_append_filter_map, foldl_append_filter_map]
  simp

theorem mentionsMissing_missingMsg (f : String) :
    mentionsMissing (missingMsg f) = true := by
  simp [mentionsMissing, missingMsg, String.data_append]

theorem mentionsMissing_numericMsg (f : String) :
    mentionsMissing (numericMsg f) = false := by
  simp [mentionsMissing, numericMsg, String.data_append]

theorem missingMsg_ne_numericMsg (g f : String) : missingMsg g ≠ numericMsg f := by
  intro h
  have h1 := mentionsMissing_missingMsg g
  rw [h, mentionsMissing_numericMsg] at h1
  exact Bool.false_ne_true h1

theorem numericMsg_inj {f g : String} (h : numericMsg f = numericMsg g) : f = g := by
  unfold numericMsg at h
  have hd := congrArg String.data h
  simp only [String.data_append, List.append_assoc] at hd
  exact String.ext (List.append_cancel_right (List.append_cancel_left hd))

/-- If a numeric-designated feature is absent or holds a numeric value,
its must-be-numeric message is not produced. -/
theorem numericMsg_not_mem (data : Record) (f : String)
    (h : ((data.lookup f).any (fun v => !isNumericVal v)) = false) :
    numericMsg f ∉ validate_input data := by
  rw [validate_input_eq]
  intro hmem
  rcases List.mem_append.mp hmem with hmem | hmem
  · obtain ⟨g, _, hg⟩ := List.mem_map.mp hmem
    exact missingMsg_ne_numericMsg g f hg
  · obtain ⟨g, hgf, hg⟩ := List.mem_map.mp hmem
    have hg' := numericMsg_inj hg
    subst hg'
    have := List.of_mem_filter hgf
    rw [h] at this
    exact Bool.false_ne_true this

/-- `validate_input` returns no message exactly when every schema feature
is present and every present numeric-designated feature is numeric. -/
theorem validate_empty_iff (data : Record) :
    validate_input data = []
      ↔ (∀ f ∈ FEATURES, (data.lookup f).isSome = true)
        ∧ ∀ f ∈ numeric_features, ∀ v, data.lookup f = some v → isNumericVal v = true := by
  rw [validate_input_eq]
  constructor
  · intro h
    rw [List.append_eq_nil] at h
    obtain ⟨h1, h2⟩ := h
    rw [List.map_eq_nil_iff, List.filter_eq_nil_iff] at h1
    rw [List.map_eq_nil_iff, List.filter_eq_nil_iff] at h2
    constructor
    · intro f hf
      have := h1 f hf
      cases hl : data.lookup f <;> simp_all
    · intro f hf v hv
      have := h2 f hf
      rw [hv] at this
      simp_all
  · intro h
    obtain ⟨h1, h2⟩ := h
    have e1 : FEATURES.filter (fun f => (data.lookup f).isNone) = [] := by
      rw [List.filter_eq_nil_iff]
      intro f hf
      have := h1 f hf
      cases hl : data.lookup f <;> simp_all
    have e2 : numeric_features.filter
        (fun f => (data.lookup f).any (fun v => !isNumericVal v)) = [] := by
      rw [List.filter_eq_nil_iff]
      intro f hf
      cases hl : data.lookup f with
      | none => simp [hl]
      | some v => simp [hl, h2 f hf v hl]
    rw [e1, e2]
    simp

/-- C1: the missing-feature messages of `validate_input` are exactly one
message per schema feature absent from the record's keys, and the result
is empty iff no check fails. -/
theorem claim_C1 (data : Record) :
    (validate_input data).filter mentionsMissing
        = (FEATURES.filter (fun f => (data.lookup f).isNone)).map missingMsg
      ∧ (validate_input data = []
          ↔ (∀ f ∈ FEATURES, (data.lookup f).isSome = true)
            ∧ ∀ f ∈ numeric_features, ∀ v, data.lookup f = some v → isNumericVal v = true) := by
  refine ⟨?_, validate_empty_iff data⟩
  rw [validate_input_eq, List.filter_append]
  have h1 : ((FEATURES.filter (fun f => (data.lookup f).isNone)).map missingMsg).filter
      mentionsMissing = (FEATURES.filter (fun f => (data.lookup f).isNone)).map missingMsg := by
    apply List.filter_eq_self.mpr
    intro m hm
    obtain ⟨g, _, rfl⟩ := List.mem_map.mp hm
    exact mentionsMissing_missingMsg g
  have h2 : ((numeric_features.filter
      (fun f => (data.lookup f).any (fun v => !isNumericVal v))).map numericMsg).filter
      mentionsMissing = [] := by
    rw [List.filter_eq_nil_iff]
    intro m hm
    obtain ⟨g, _, rfl⟩ := List.mem_map.mp hm
    simp [mentionsMissing_numericMsg g]
  rw [h1, h2, List.append_nil]

/-- C1 witness: the record missing every feature but `channel_name` gets
exactly ten missing-feature messages, and the fully-populated record
validates cleanly. -/
theorem claim_C1_witness :
    ((validate_input [("channel_name", .vStr "Inbound")]).filter mentionsMissing
        = (FEATURES.filter
            (fun f => (([("channel_name", Value.vStr "Inbound")] : Record).lookup f).isNone)).map
            missingMsg
      ∧ (validate_input [("channel_name", .vStr "Inbound")] = []
          ↔ (∀ f ∈ FEATURES,
                ((([("channel_name", Value.vStr "Inbound")] : Record).lookup f).isSome) = true)
            ∧ ∀ f ∈ numeric_features, ∀ v,
                ([("channel_name", Value.vStr "Inbound")] : Record).lookup f = some v →
                  isNumericVal v = true)) :=
  claim_C1 [("channel_name", .vStr "Inbound")]

/-- C5: a numeric-designated feature holding a string is flagged with the
must-be-numeric message; holding an int or float it is not flagged; and
when absent the numeric check emits nothing for it. -/
theorem claim_C5 (data : Record) (f : String) (hf : f ∈ numeric_features) :
    (∀ s, data.lookup f = some (.vStr s) → numericMsg f ∈ validate_input data)
    ∧ (∀ v, data.lookup f = some v →
        ((∃ n, v = Value.vInt n) ∨ (∃ q, v = Value.vFloat q)) →
          numericMsg f ∉ validate_input data)
    ∧ (data.lookup f = none → numericMsg f ∉ validate_input data) := by
  refine ⟨?_, ?_, ?_⟩
  · intro s hs
    rw [validate_input_eq]
    apply List.mem_append.mpr
    right
    apply List.mem_map.mpr
    refine ⟨f, ?_, rfl⟩
    apply List.mem_filter.mpr
    exact ⟨hf, by simp [hs, isNumericVal]⟩
  · rintro v hv (⟨n, rfl⟩ | ⟨q, rfl⟩) <;>
      exact numericMsg_not_mem data f (by simp [hv, isNumericVal])
  · intro hv
    exact numericMsg_not_mem data f (by simp [hv])

/-- C5 witness: instantiated at `Item_price` on the demo record, where it
holds the integer 100. -/
theorem claim_C5_witness :
    "Item_price" ∈ numeric_features
    ∧ ((∀ s, demoRecord.lookup "Item_price" = some (.vStr s) →
          numericMsg "Item_price" ∈ validate_input demoRecord)
      ∧ (∀ v, demoRecord.lookup "Item_price" = some v →
          ((∃ n, v = Value.vInt n) ∨ (∃ q, v = Value.vFloat q)) →
            numericMsg "Item_price" ∉ validate_input demoRecord)
      ∧ (demoRecord.lookup "Item_price" = none →
          numericMsg "Item_price" ∉ validate_input demoRecord)) :=
  ⟨by decide, claim_C5 demoRecord "Item_price" (by decide)⟩

/-- C10: a boolean passes the `isinstance(v, (int, float))` check, so a
numeric-designated feature holding a boolean is not flagged. -/
theorem claim_C10 (data : Record) (f : String) (b : Bool)
    (hf : f ∈ numeric_features) (hv : data.lookup f = some (.vBool b)) :
    isNumericVal (.vBool b) = true ∧ numericMsg f ∉ validate_input data :=
  ⟨rfl, numericMsg_not_mem data f (by simp [hv, isNumericVal])⟩

/-- C10 witness: a record identical to the demo record except that
`Item_price` is the boolean `true` produces no message at all. -/
theorem claim_C10_witness :
    ("Item_price" ∈ numeric_features
      ∧ (dfSet demoRecord "Item_price" (.vBool true)).lookup "Item_price"
          = some (.vBool true)
      ∧ (isNumericVal (.vBool true) = true
          ∧ numericMsg "Item_price" ∉
              validate_input (dfSet demoRecord "Item_price" (.vBool true))))
    ∧ validate_input (dfSet demoRecord "Item_price" (.vBool true)) = [] := by
  refine ⟨⟨by decide, by decide, ?_⟩, by decide⟩
  exact claim_C10 (dfSet demoRecord "Item_price" (.vBool true)) "Item_price" true
    (by decide) (by decide)

end ValidateLemmas

section PreprocessLemmas

/-- `List.lookup` on a cons cell, with propositional key comparison. -/
theorem lookup_cons_eq {β : Type} (a k : String) (b : β) (es : List (String × β)) :
    List.lookup a ((k, b) :: es) = if a = k then some b else List.lookup a es := by
  cases hb : a == k
  · have hne : a ≠ k := by simpa using hb
    simp [List.lookup, hb, hne]
  · have heq : a = k := by simpa using hb
    simp [List.lookup, hb, heq]

/-- A key outside an association list's keys looks up to `none`. -/
theorem lookup_none {β : Type} (l : List (String × β)) (k : String)
    (h : k ∉ l.map Prod.fst) : List.lookup k l = none := by
  induction l with
  | nil => simp
  | cons p ps ih =>
    simp only [List.map_cons, List.mem_cons, not_or] at h
    rw [show p = (p.1, p.2) from rfl, lookup_cons_eq]
    simp [h.1, ih h.2]

theorem lookup_isSome_of_mem_keys {β : Type} (l : List (String × β)) (k : String)
    (h : k ∈ l.map Prod.fst) : (List.lookup k l).isSome = true := by
  induction l with
  | nil => simp at h
  | cons p ps ih =>
    rw [show p = (p.1, p.2) from rfl, lookup_cons_eq]
    by_cases hk : k = p.1
    · simp [hk]
    · simp only [List.map_cons, List.mem_cons] at h
      rcases h with h | h

      · exact absurd h hk
      · simp [hk, ih h]

theorem lookup_map_set_self (df : Record) (k : String) (v : Value)
    (h : df.any (fun p => p.1 == k) = true) :
    (df.map (fun p => if p.1 == k then (k, v) else p)).lookup k = some v := by
  induction df with
  | nil => simp at h
  | cons p ps ih =>
    cases hp : (p.1 == k)
    · simp only [List.any_cons, hp, Bool.false_or] at h
      have hne : k ≠ p.1 := fun e => by simp [e] at hp
      simp only [List.map_cons, hp, Bool.false_eq_true, ite_false]
      rw [show p = (p.1, p.2) from rfl, lookup_cons_eq, if_neg hne]
      exact ih h
    · simp only [List.map_cons, hp, ite_true]
      rw [lookup_cons_eq]
      simp

theorem lookup_map_set_ne (df : Record) (k : String) (v : Value) (k' : String)
    (hne : k' ≠ k) :
    (df.map (fun p => if p.1 == k then (k, v) else p)).lookup k' = df.lookup k' := by
  induction df with
  | nil => simp
  | cons p ps ih =>
    cases hp : (p.1 == k)
    · simp only [List.map_cons, hp, Bool.false_eq_true, ite_false]
      rw [show p = (p.1, p.2) from rfl, lookup_cons_eq, lookup_cons_eq, ih]
    · have hpk : p.1 = k := by simpa using hp
      simp only [List.map_cons, hp, ite_true]
      rw [lookup_cons_eq, if_neg hne]
      rw [show p = (p.1, p.2) from rfl, lookup_cons_eq, if_neg (hpk ▸ hne)]
      exact ih

theorem lookup_append_single_ne (df : Record) (k : String) (v : Value) (k' : String)
    (hne : k' ≠ k) : (df ++ [(k, v)]).lookup k' = df.lookup k' := by
  induction df with
  | nil => simp [lookup_cons_eq, hne]
  | cons p ps ih =>
    rw [List.cons_append, show p = (p.1, p.2) from rfl, lookup_cons_eq, lookup_cons_eq, ih]

/-- Setting a column makes it present with the given value. -/
theorem lookup_dfSet_self (df : Record) (k : String) (v : Value) :
    (dfSet df k v).lookup k = some v := by
  unfold dfSet
  cases h : df.any (fun p => p.1 == k)
  · simp only [h, Bool.false_eq_true, ite_false]
    induction df with
    | nil => simp [lookup_cons_eq]
    | cons p ps ih =>
      simp only [List.any_cons, Bool.or_eq_false_iff] at h
      have hne : k ≠ p.1 := fun e => by simp [e] at h
      rw [List.cons_append, show p = (p.1, p.2) from rfl, lookup_cons_eq]
      simp only [hne, ite_false, if_neg]
      exact ih h.2
  · simp only [h, ite_true]
    exact lookup_map_set_self df k v h

/-- Setting a column leaves every other column's lookup unchanged. -/
theorem lookup_dfSet_ne (df : Record) (k : String) (v : Value) (k' : String)
    (hne : k' ≠ k) : (dfSet df k v).lookup k' = df.lookup k' := by
  unfold dfSet
  cases h : df.any (fun p => p.1 == k)
  · simp only [h, Bool.false_eq_true, ite_false]
    exact lookup_append_single_ne df k v k' hne
  · simp only [h, ite_true]
    exact lookup_map_set_ne df k v k' hne

theorem mem_bumpClasses_unknown (cs : List String) : "Unknown" ∈ bumpClasses cs := by
  unfold bumpClasses
  by_cases h : "Unknown" ∈ cs <;> simp [h]

theorem mem_bumpClasses_of_mem {cs : List String} {s : String} (h : s ∈ cs) :
    s ∈ bumpClasses cs := by
  unfold bumpClasses
  by_cases hu : "Unknown" ∈ cs <;> simp [hu, h]

/-- The fallback value of a cell is always in the bumped vocabulary, so the
`transform` after the `Unknown` append never raises. -/
theorem fallback_mem (le : Encoder) (v : Value) :
    fallback le v ∈ bumpClasses le.classes := by
  cases v with
  | vStr s =>
    by_cases h : s ∈ le.classes <;>
      simp [fallback, h, mem_bumpClasses_of_mem, mem_bumpClasses_unknown]
  | vBool b => simp [fallback, mem_bumpClasses_unknown]
  | vInt n => simp [fallback, mem_bumpClasses_unknown]
  | vFloat q => simp [fallback, mem_bumpClasses_unknown]

theorem transform_bump (le : Encoder) (v : Value) :
    Encoder.transform ⟨bumpClasses le.classes⟩ (fallback le v)
      = .ok ((bumpClasses le.classes).indexOf (fallback le v)) := by
  unfold Encoder.transform
  simp [fallback_mem le v]

/-- Characterisation of the encoder loop when the encoder dict has no
duplicate column (a Python dict invariant): the loop never raises, each
encoder whose column is present in the frame gets its classes bumped with
the `Unknown` sentinel, each present encoder column is replaced by the
integer code of its fallback value, and every other column is untouched. -/
theorem encodeLoop_spec (encs : Encoders) (df : Record)
    (hnd : (encs.map Prod.fst).Nodup) :
    ∃ df', encodeLoop encs df
        = .ok (df', encs.map (fun p =>
            (p.1, if (df.lookup p.1).isSome then (⟨bumpClasses p.2.classes⟩ : Encoder)
                  else p.2)))
      ∧ (∀ k : String, encs.lookup k = none → df'.lookup k = df.lookup k)
      ∧ (∀ k : String, ∀ le : Encoder, encs.lookup k = some le →
          df.lookup k = none → df'.lookup k = none)
      ∧ (∀ k : String, ∀ le : Encoder, ∀ v : Value, encs.lookup k = some le →
          df.lookup k = some v →
          df'.lookup k
            = some (.vInt ((bumpClasses le.classes).indexOf (fallback le v)))) := by
  induction encs generalizing df with
  | nil =>
    exact ⟨df, rfl, fun k _ => rfl, fun k le h => by simp at h,
      fun k le v h => by simp at h⟩
  | cons p rest ih =>
    obtain ⟨col, le⟩ := p
    simp only [List.map_cons, List.nodup_cons] at hnd
    obtain ⟨hcol, hndrest⟩ := hnd
    have hqne : ∀ q ∈ rest, q.1 ≠ col := fun q hq e => hcol (List.mem_map.mpr ⟨q, hq, e⟩)
    have hrestcol : rest.lookup col = none := lookup_none rest col hcol
    cases hdf : df.lookup col with
    | none =>
      obtain ⟨df', hok, hA, hB, hC⟩ := ih df hndrest
      refine ⟨df', ?_, ?_, ?_, ?_⟩
      · simp only [encodeLoop, hdf, hok, List.map_cons]
        simp
      · intro k hk
        rw [lookup_cons_eq] at hk
        split_ifs at hk
        exact hA k hk
      · intro k le'' hk hdk
        rw [lookup_cons_eq] at hk
        split_ifs at hk with hkc
        · subst hkc
          rw [hA k hrestcol, hdk]
        · exact hB k le'' hk hdk
      · intro k le'' v'' hk hdk
        rw [lookup_cons_eq] at hk
        split_ifs at hk with hkc
        · subst hkc
          rw [hdf] at hdk
          cases hdk
        · exact hC k le'' v'' hk hdk
    | some v =>
      obtain ⟨df', hok, hA, hB, hC⟩ :=
        ih (dfSet df col (.vInt ((bumpClasses le.classes).indexOf (fallback le v))))
          hndrest
      have hset : ∀ k : String, k ≠ col →
          (dfSet df col (.vInt ((bumpClasses le.classes).indexOf (fallback le v)))).lookup k
            = df.lookup k :=
        fun k hk => lookup_dfSet_ne df col _ k hk
      refine ⟨df', ?_, ?_, ?_, ?_⟩
      · simp only [encodeLoop, hdf, transform_bump, hok, List.map_cons]
        have hmap : rest.map (fun q =>
            (q.1, if ((dfSet df col
                (.vInt ((bumpClasses le.classes).indexOf (fallback le v)))).lookup q.1).isSome
              then (⟨bumpClasses q.2.classes⟩ : Encoder) else q.2))
            = rest.map (fun q =>
              (q.1, if (df.lookup q.1).isSome then (⟨bumpClasses q.2.classes⟩ : Encoder)
                    else q.2)) :=
          List.map_congr_left (fun q hq => by rw [hset q.1 (hqne q hq)])
        rw [hmap]
        simp [hdf]
      · intro k hk
        rw [lookup_cons_eq] at hk
        split_ifs at hk with hkc
        rw [hA k hk, hset k hkc]
      · intro k le'' hk hdk
        rw [lookup_cons_eq] at hk
        split_ifs at hk with hkc
        · subst hkc
          rw [hdf] at hdk
          cases hdk
        · rw [hB k le'' hk]
          rw [hset k hkc, hdk]
      · intro k le'' v'' hk hdk
        rw [lookup_cons_eq] at hk
        split_ifs at hk with hkc
        · subst hkc
          cases hk
          rw [hdf] at hdk
          cases hdk
          rw [hA _ hrestcol, lookup_dfSet_self]
        · rw [hC k le'' v'' hk]
          rw [hset k hkc, hdk]

theorem lookup_fill_aux (fs : List String) (df : Record) (k : String) :
    ((fs.foldl (fun acc feature =>
        if (acc.lookup feature).isNone then dfSet acc feature (.vInt 0) else acc)
        df).lookup k)
      = if (df.lookup k).isSome = true then df.lookup k
        else if k ∈ fs then some (.vInt 0) else none := by
  induction fs generalizing df with
  | nil => cases h : df.lookup k <;> simp [h]
  | cons f fs ih =>
    rw [List.foldl_cons]
    cases hf : df.lookup f with
    | some v =>
      simp only [Option.isNone_some, Bool.false_eq_true, ite_false]
      rw [ih df]
      by_cases hk : k = f
      · subst hk
        simp [hf]
      · simp [List.mem_cons, hk]
    | none =>
      simp only [Option.isNone_none, ite_true]
      rw [ih]
      by_cases hk : k = f
      · subst hk
        simp [lookup_dfSet_self, hf]
      · rw [lookup_dfSet_ne df f _ k hk]
        simp [List.mem_cons, hk]

/-- Lookup after the 0-fill pass: a present column keeps its value and an
absent schema feature becomes 0. -/
theorem fillMissing_lookup (df : Record) (k : String) :
    (fillMissing df).lookup k
      = if (df.lookup k).isSome = true then df.lookup k
        else if k ∈ FEATURES then some (.vInt 0) else none :=
  lookup_fill_aux FEATURES df k

theorem lookupAll_eq (fs : List String) (df : Record)
    (h : ∀ f ∈ fs, (df.lookup f).isSome = true) :
    lookupAll fs df = some (fs.map (fun f => (df.lookup f).getD (.vInt 0))) := by
  induction fs with
  | nil => rfl
  | cons f fs ih =>
    have hf := h f (List.mem_cons_self f fs)
    cases hlf : df.lookup f with
    | none => rw [hlf] at hf; cases hf
    | some v =>
      simp only [lookupAll, hlf, ih (fun g hg => h g (List.mem_cons_of_mem f hg)),
        List.map_cons]
      simp [hlf]

/-- Master characterisation of `preprocess_input` over an encoder dict with
no duplicate column: it always succeeds, the output row is the schema-order
image of `entryFor`, and the updated encoder dict is `postEncs`. -/
theorem preprocess_input_spec (encs : Encoders) (data : Record)
    (hnd : (encs.map Prod.fst).Nodup) :
    preprocess_input encs data
      = .ok (FEATURES.map (entryFor encs data), postEncs encs data) := by
  obtain ⟨df', hok, hA, hB, hC⟩ := encodeLoop_spec encs data hnd
  have hpresent : ∀ f ∈ FEATURES, ((fillMissing df').lookup f).isSome = true := by
    intro f hf
    rw [fillMissing_lookup]
    cases h : df'.lookup f <;> simp [h, hf]
  have hentry : ∀ f ∈ FEATURES,
      ((fillMissing df').lookup f).getD (.vInt 0) = entryFor encs data f := by
    intro f hf
    rw [fillMissing_lookup]
    cases he : encs.lookup f with
    | some le =>
      cases hd : data.lookup f with
      | some v =>
        rw [hC f le v he hd]
        simp [entryFor, he, hd]
      | none =>
        rw [hB f le he hd]
        simp [entryFor, he, hd, hf]
    | none =>
      rw [hA f he]
      cases hd : data.lookup f <;> simp [entryFor, he, hd, hf]
  unfold preprocess_input preprocessBody preprocessWrap
  simp only [hok, lookupAll_eq FEATURES (fillMissing df') hpresent]
  rw [List.map_congr_left hentry]
  rfl

/-- Lookup in the updated encoder dict. -/
theorem lookup_postEncs (encs : Encoders) (data : Record) (k : String) :
    (postEncs encs data).lookup k
      = (encs.lookup k).map (fun le =>
          if (data.lookup k).isSome then (⟨bumpClasses le.classes⟩ : Encoder) else le) := by
  induction encs with
  | nil => rfl
  | cons p rest ih =>
    unfold postEncs
    unfold postEncs at ih
    simp only [List.map_cons]
    rw [lookup_cons_eq, show p = (p.1, p.2) from rfl, lookup_cons_eq]
    by_cases hk : k = p.1
    · subst hk
      simp
    · simp [hk, ih]

theorem postEncs_keys (encs : Encoders) (data : Record) :
    (postEncs encs data).map Prod.fst = encs.map Prod.fst := by
  unfold postEncs
  rw [List.map_map]
  rfl

theorem bumpClasses_idem (cs : List String) :
    bumpClasses (bumpClasses cs) = bumpClasses cs := by
  unfold bumpClasses
  by_cases h : "Unknown" ∈ cs <;> simp [h]

/-- The unseen-label fallback is stable under the `Unknown` append: the
bumped encoder sends each cell to the same class string. -/
theorem fallback_bump (le : Encoder) (v : Value) :
    fallback ⟨bumpClasses le.classes⟩ v = fallback le v := by
  cases v with
  | vStr s =>
    by_cases hs : s ∈ le.classes
    · simp [fallback, hs, mem_bumpClasses_of_mem hs]
    · by_cases hu : s = "Unknown"
      · subst hu
        simp [fallback, hs]
      · have hnb : s ∉ bumpClasses le.classes := by
          unfold bumpClasses
          by_cases h2 : "Unknown" ∈ le.classes <;> simp [h2, hs, hu]
        simp [fallback, hs, hnb]
  | vBool b => rfl
  | vInt n => rfl
  | vFloat q => rfl

/-- Re-encoding against the already-updated encoders gives the same cell. -/
theorem entryFor_postEncs (encs : Encoders) (data : Record) (f : String) :
    entryFor (postEncs encs data) data f = entryFor encs data f := by
  unfold entryFor
  rw [lookup_postEncs]
  cases he : encs.lookup f with
  | none => simp
  | some le =>
    cases hd : data.lookup f with
    | none => simp [hd]
    | some v =>
      simp only [hd, Option.isSome_some, ite_true, Option.map_some']
      have : bumpClasses (⟨bumpClasses le.classes⟩ : Encoder).classes
          = bumpClasses le.classes := bumpClasses_idem le.classes
      rw [this, fallback_bump]

/-- C2: an unseen categorical value never raises; the cell becomes the
updated encoder's code for the `Unknown` sentinel. -/
theorem claim_C2 (encs : Encoders) (data : Record) (col : String) (le : Encoder)
    (s : String) (hnd : (encs.map Prod.fst).Nodup) (hcol : col ∈ FEATURES)
    (hle : encs.lookup col = some le) (hv : data.lookup col = some (.vStr s))
    (hs : s ∉ le.classes) :
    ∃ row encs' le', preprocess_input encs data = .ok (row, encs')
      ∧ encs'.lookup col = some le'
      ∧ row[FEATURES.indexOf col]? = some (.vInt (le'.classes.indexOf "Unknown")) := by
  refine ⟨FEATURES.map (entryFor encs data), postEncs encs data,
    ⟨bumpClasses le.classes⟩, preprocess_input_spec encs data hnd, ?_, ?_⟩
  · rw [lookup_postEncs, hle, hv]
    simp
  · rw [List.getElem?_map, List.getElem?_indexOf hcol]
    simp only [Option.map_some']
    unfold entryFor
    rw [hle, hv]
    simp [fallback, hs]

/-- C3: the output of `preprocess_input` depends on the record only through
its key-value mapping, and the row is laid out in fixed schema order (its
i-th cell is a function of the i-th schema feature alone, so any key
outside the schema is dropped). -/
theorem claim_C3 (encs : Encoders) (r1 r2 : Record)
    (hnd : (encs.map Prod.fst).Nodup)
    (hperm : ∀ k : String, r1.lookup k = r2.lookup k) :
    preprocess_input encs r1 = preprocess_input encs r2
    ∧ preprocess_input encs r1
        = .ok (FEATURES.map (entryFor encs r1), postEncs encs r1) := by
  have h1 := preprocess_input_spec encs r1 hnd
  have h2 := preprocess_input_spec encs r2 hnd
  have hent : entryFor encs r1 = entryFor encs r2 := by
    funext f
    unfold entryFor
    rw [hperm f]
  have hpost : postEncs encs r1 = postEncs encs r2 := by
    unfold postEncs
    exact List.map_congr_left fun p _ => by rw [hperm p.1]
  exact ⟨by rw [h1, h2, hent, hpost], h1⟩

/-- C4: encoding the same record twice in sequence yields identical rows,
although the first call may have appended `Unknown` to encoder vocabularies. -/
theorem claim_C4 (encs : Encoders) (data : Record) (v1 v2 : List Value)
    (e1 e2 : Encoders) (hnd : (encs.map Prod.fst).Nodup)
    (h1 : preprocess_input encs data = .ok (v1, e1))
    (h2 : preprocess_input e1 data = .ok (v2, e2)) : v1 = v2 := by
  rw [preprocess_input_spec encs data hnd] at h1
  obtain ⟨hv1, he1⟩ : v1 = FEATURES.map (entryFor encs data) ∧ e1 = postEncs encs data := by
    cases h1
    exact ⟨rfl, rfl⟩
  subst hv1
  subst he1
  have hnd' : ((postEncs encs data).map Prod.fst).Nodup := by
    rw [postEncs_keys]
    exact hnd
  rw [preprocess_input_spec (postEncs encs data) data hnd'] at h2
  obtain ⟨hv2, _⟩ : v2 = FEATURES.map (entryFor (postEncs encs data) data) ∧
      e2 = postEncs (postEncs encs data) data := by
    cases h2
    exact ⟨rfl, rfl⟩
  subst hv2
  exact (List.map_congr_left fun f _ => entryFor_postEncs encs data f).symm

/-- C6: preprocessing always yields a flat row of length 11 in schema
order, in which every schema feature absent from the record is 0. -/
theorem claim_C6 (encs : Encoders) (data : Record)
    (hnd : (encs.map Prod.fst).Nodup) :
    ∃ row encs', preprocess_input encs data = .ok (row, encs')
      ∧ row.length = 11
      ∧ ∀ i : Nat, ∀ f : String, FEATURES[i]? = some f → data.lookup f = none →
          row[i]? = some (.vInt 0) := by
  refine ⟨FEATURES.map (entryFor encs data), postEncs encs data,
    preprocess_input_spec encs data hnd, by simp [FEATURES], ?_⟩
  intro i f hi hf
  rw [List.getElem?_map, hi]
  simp only [Option.map_some']
  unfold entryFor
  rw [hf]
  cases he : encs.lookup f <;> simp

/-- C9: one `preprocess_input` call changes each encoder's class list in at
most one append-only way: unchanged whenever `Unknown` is already known,
otherwise either untouched or with `Unknown` appended exactly once at the
end; existing classes keep their positions and hence their codes. -/
theorem claim_C9 (encs : Encoders) (data : Record)
    (hnd : (encs.map Prod.fst).Nodup) :
    ∃ row encs', preprocess_input encs data = .ok (row, encs')
      ∧ ∀ col le, encs.lookup col = some le →
          ∃ le', encs'.lookup col = some le'
            ∧ ("Unknown" ∈ le.classes → le'.classes = le.classes)
            ∧ (le'.classes = le.classes
                ∨ ("Unknown" ∉ le.classes ∧ le'.classes = le.classes ++ ["Unknown"]))
            ∧ ((data.lookup col).isSome = true → "Unknown" ∉ le.classes →
                le'.classes = le.classes ++ ["Unknown"])
            ∧ (data.lookup col = none → le'.classes = le.classes)
            ∧ ∀ s ∈ le.classes, le'.classes.indexOf s = le.classes.indexOf s := by
  refine ⟨FEATURES.map (entryFor encs data), postEncs encs data,
    preprocess_input_spec encs data hnd, ?_⟩
  intro col le hle
  refine ⟨if (data.lookup col).isSome then ⟨bumpClasses le.classes⟩ else le,
    ?_, ?_, ?_, ?_, ?_, ?_⟩
  · rw [lookup_postEncs, hle]
    rfl
  · intro hu
    by_cases hd : (data.lookup col).isSome <;> simp [hd, bumpClasses, hu]
  · by_cases hd : (data.lookup col).isSome
    · by_cases hu : "Unknown" ∈ le.classes
      · left
        simp [hd, bumpClasses, hu]
      · right
        exact ⟨hu, by simp [hd, bumpClasses, hu]⟩
    · left
      simp [hd]
  · intro hd hu
    simp [hd, bumpClasses, hu]
  · intro hd
    simp [hd]
  · intro s hs
    by_cases hd : (data.lookup col).isSome
    · simp only [hd, ite_true]
      show (bumpClasses le.classes).indexOf s = le.classes.indexOf s
      unfold bumpClasses
      by_cases hu : "Unknown" ∈ le.classes
      · simp [hu]
      · simp only [hu, ite_false]
        exact List.indexOf_append_of_mem hs
    · simp [hd]

/-- C2 witness: the unseen `channel_name` value `WhatsApp` encodes to the
`Unknown` code of the updated encoder. -/
theorem claim_C2_witness :
    ((demoEncs.map Prod.fst).Nodup
      ∧ "channel_name" ∈ FEATURES
      ∧ demoEncs.lookup "channel_name" = some ⟨["Email", "Inbound"]⟩
      ∧ (dfSet demoRecord "channel_name" (.vStr "WhatsApp")).lookup "channel_name"
          = some (.vStr "WhatsApp")
      ∧ "WhatsApp" ∉ (⟨["Email", "Inbound"]⟩ : Encoder).classes)
    ∧ ∃ row encs' le',
        preprocess_input demoEncs (dfSet demoRecord "channel_name" (.vStr "WhatsApp"))
            = .ok (row, encs')
          ∧ encs'.lookup "channel_name" = some le'
          ∧ row[FEATURES.indexOf "channel_name"]?
              = some (.vInt (le'.classes.indexOf "Unknown")) :=
  ⟨⟨by decide, by decide, by decide, by decide, by decide⟩,
   claim_C2 demoEncs (dfSet demoRecord "channel_name" (.vStr "WhatsApp"))
     "channel_name" ⟨["Email", "Inbound"]⟩ "WhatsApp"
     (by decide) (by decide) (by decide) (by decide) (by decide)⟩

/-- C3 witness: two two-key records that are the same mapping in opposite
orders preprocess to the same result. -/
theorem claim_C3_witness :
    ((demoEncs.map Prod.fst).Nodup
      ∧ ∀ k : String,
          ([("x", Value.vInt 1), ("y", Value.vInt 2)] : Record).lookup k
            = ([("y", Value.vInt 2), ("x", Value.vInt 1)] : Record).lookup k)
    ∧ (preprocess_input demoEncs [("x", .vInt 1), ("y", .vInt 2)]
          = preprocess_input demoEncs [("y", .vInt 2), ("x", .vInt 1)]
      ∧ preprocess_input demoEncs [("x", .vInt 1), ("y", .vInt 2)]
          = .ok (FEATURES.map (entryFor demoEncs [("x", .vInt 1), ("y", .vInt 2)]),
                 postEncs demoEncs [("x", .vInt 1), ("y", .vInt 2)])) := by
  have hperm : ∀ k : String,
      ([("x", Value.vInt 1), ("y", Value.vInt 2)] : Record).lookup k
        = ([("y", Value.vInt 2), ("x", Value.vInt 1)] : Record).lookup k := by
    intro k
    by_cases h1 : k = "x"
    · subst h1
      decide
    · by_cases h2 : k = "y"
      · subst h2
        decide
      · rw [lookup_cons_eq, lookup_cons_eq, lookup_cons_eq, lookup_cons_eq]
        simp [h1, h2]
  exact ⟨⟨by decide, hperm⟩, claim_C3 demoEncs _ _ (by decide) hperm⟩

/-- C4 witness: preprocessing the demo record twice in sequence yields the
same row both times. -/
theorem claim_C4_witness :
    ((demoEncs.map Prod.fst).Nodup
      ∧ preprocess_input demoEncs demoRecord = .ok (demoRow, demoEncs1)
      ∧ preprocess_input demoEncs1 demoRecord = .ok (demoRow, demoEncs1))
    ∧ demoRow = demoRow :=
  ⟨⟨by decide, by rfl, by rfl⟩,
   claim_C4 demoEncs demoRecord demoRow demoRow demoEncs1 demoEncs1
     (by decide) (by rfl) (by rfl)⟩

/-- C6 witness: instantiated at a record supplying only `channel_name`. -/
theorem claim_C6_witness :
    (demoEncs.map Prod.fst).Nodup
    ∧ ∃ row encs',
        preprocess_input demoEncs [("channel_name", Value.vStr "Inbound")]
            = .ok (row, encs')
          ∧ row.length = 11
          ∧ ∀ i : Nat, ∀ f : String, FEATURES[i]? = some f →
              ([("channel_name", Value.vStr "Inbound")] : Record).lookup f = none →
              row[i]? = some (.vInt 0) :=
  ⟨by decide, claim_C6 demoEncs [("channel_name", Value.vStr "Inbound")] (by decide)⟩

/-- C9 witness: instantiated at the demo encoders and demo record. -/
theorem claim_C9_witness :
    (demoEncs.map Prod.fst).Nodup
    ∧ ∃ row encs', preprocess_input demoEncs demoRecord = .ok (row, encs')
      ∧ ∀ col le, demoEncs.lookup col = some le →
          ∃ le', encs'.lookup col = some le'
            ∧ ("Unknown" ∈ le.classes → le'.classes = le.classes)
            ∧ (le'.classes = le.classes
                ∨ ("Unknown" ∉ le.classes ∧ le'.classes = le.classes ++ ["Unknown"]))
            ∧ ((demoRecord.lookup col).isSome = true → "Unknown" ∉ le.classes →
                le'.classes = le.classes ++ ["Unknown"])
            ∧ (demoRecord.lookup col = none → le'.classes = le.classes)
            ∧ ∀ s ∈ le.classes, le'.classes.indexOf s = le.classes.indexOf s :=
  ⟨by decide, claim_C9 demoEncs demoRecord (by decide)⟩

end PreprocessLemmas

section OrchestrationLemmas

/-- C7: a failing preprocessing body is re-signalled as a single wrapped
`ValueError` carrying the original cause message, and the `/predict`
handler maps a preprocessing `ValueError` to a 400 response carrying that
message. -/
theorem claim_C7 :
    (∀ (r : Except String (List Value × Encoders)) (m : String), r = .error m →
        preprocessWrap r = .error ("Preprocessing failed: " ++ m))
    ∧ ∀ (deps : ModelDeps) (pp : Record → Except String (List Value × Encoders))
        (input : Record) (msg : String),
        pp input = .error msg → validate_input input = [] →
        predictRoute deps pp true input = errResp 400 msg := by
  constructor
  · intro r m h
    subst h
    rfl
  · intro deps pp input msg hpp hval
    simp [predictRoute, hval, hpp]

/-- C7 witness: a concrete failing body and a concrete failing
preprocessing stage on the demo record. -/
theorem claim_C7_witness :
    (((.error "boom" : Except String (List Value × Encoders)) = .error "boom")
      ∧ preprocessWrap (.error "boom" : Except String (List Value × Encoders))
          = .error ("Preprocessing failed: " ++ "boom"))
    ∧ ((fun _ : Record =>
          (.error "Preprocessing failed: boom" : Except String (List Value × Encoders)))
            demoRecord = .error "Preprocessing failed: boom"
      ∧ validate_input demoRecord = []
      ∧ predictRoute demoDeps
          (fun _ => .error "Preprocessing failed: boom") true demoRecord
          = errResp 400 "Preprocessing failed: boom") :=
  ⟨⟨rfl, claim_C7.1 (.error "boom") "boom" rfl⟩,
   ⟨rfl, by decide,
    claim_C7.2 demoDeps (fun _ => .error "Preprocessing failed: boom") demoRecord
      "Preprocessing failed: boom" rfl (by decide)⟩⟩

/-- C8 as stated is false: a `ValueError` raised by the model's `predict`
is caught by the handler's `except ValueError` branch, yielding a 400
response that carries the exception message rather than a 500 response
with the generic message. -/
theorem claim_C8_counterexample :
    (predict badDeps demoEncs true demoRecord).status = 400
    ∧ (predict badDeps demoEncs true demoRecord).error = some "boom"
    ∧ (predict badDeps demoEncs true demoRecord).status ≠ 500
    ∧ (predict badDeps demoEncs true demoRecord).error ≠ some "Internal server error" := by
  refine ⟨?_, ?_, ?_, ?_⟩ <;> decide

/-- C8 amended: an exception during model invocation or response assembly
yields the 500 response with the generic message only when it is not a
`ValueError`; a `ValueError` from those steps yields a 400 response
carrying its message.  In the embedding the assembly conversions `int()`
and `float()` raise only `ValueError`s, so those are the reachable
assembly-failure branches. -/
theorem claim_C8_amended (deps : ModelDeps) (encs : Encoders) (data : Record)
    (row : List Value) (encs' : Encoders) (m : String)
    (hok : preprocess_input encs data = .ok (row, encs'))
    (hval : validate_input data = []) :
    (deps.model_predict row = .error (.otherError m) →
        predict deps encs true data = errResp 500 "Internal server error")
    ∧ (deps.model_predict row = .error (.valueError m) →
        predict deps encs true data = errResp 400 m)
    ∧ (∀ pv, deps.model_predict row = .ok pv →
        deps.model_predict_proba row = .error (.otherError m) →
        predict deps encs true data = errResp 500 "Internal server error")
    ∧ (∀ pv, deps.model_predict row = .ok pv →
        deps.model_predict_proba row = .error (.valueError m) →
        predict deps encs true data = errResp 400 m)
    ∧ (∀ pv pb, deps.model_predict row = .ok pv →
        deps.model_predict_proba row = .ok pb →
        pyInt pv = .error (.valueError m) →
        predict deps encs true data = errResp 400 m)
    ∧ (∀ pv pb n, deps.model_predict row = .ok pv →
        deps.model_predict_proba row = .ok pb →
        pyInt pv = .ok n →
        pyFloat pb = .error (.valueError m) →
        predict deps encs true data = errResp 400 m) := by
  refine ⟨?_, ?_, ?_, ?_, ?_, ?_⟩
  · intro hm
    simp [predict, predictRoute, hval, hok, hm]
  · intro hm
    simp [predict, predictRoute, hval, hok, hm]
  · intro pv hp hm
    simp [predict, predictRoute, hval, hok, hp, hm]
  · intro pv hp hm
    simp [predict, predictRoute, hval, hok, hp, hm]
  · intro pv pb hp hb hm
    simp [predict, predictRoute, hval, hok, hp, hb, hm]
  · intro pv pb n hp hb hn hm
    simp [predict, predictRoute, hval, hok, hp, hb, hn, hm]

/-- C8 amended witness: with an empty encoder bundle, a non-`ValueError`
exception from the model yields the generic 500 response, while a
`ValueError` raised by the response assembly's `int()` on a string
prediction yields a 400 response carrying its message. -/
theorem claim_C8_amended_witness :
    (preprocess_input [] demoRecord = .ok (demoRowPlain, [])
      ∧ validate_input demoRecord = []
      ∧ otherDeps.model_predict demoRowPlain = .error (.otherError "boom")
      ∧ strDeps.model_predict demoRowPlain = .ok (.vStr "abc")
      ∧ strDeps.model_predict_proba demoRowPlain = .ok (.vFloat (1 / 2))
      ∧ pyInt (.vStr "abc")
          = .error (.valueError "invalid literal for int() with base 10: abc"))
    ∧ predict otherDeps [] true demoRecord = errResp 500 "Internal server error"
    ∧ predict strDeps [] true demoRecord
        = errResp 400 "invalid literal for int() with base 10: abc" :=
  ⟨⟨by rfl, by decide, rfl, rfl, rfl, by rfl⟩,
   (claim_C8_amended otherDeps [] demoRecord demoRowPlain [] "boom"
      (by rfl) (by decide)).1 rfl,
   (claim_C8_amended strDeps [] demoRecord demoRowPlain []
      "invalid literal for int() with base 10: abc"
      (by rfl) (by decide)).2.2.2.2.1 (.vStr "abc") (.vFloat (1 / 2))
     rfl rfl (by rfl)⟩

end OrchestrationLemmas
